import Mathlib

/-!
Shallow embedding of the transformation core of the Cricsheet match-analysis
pipeline (`data_transformation/transformer.py`): the Match Flattener
(`DataTransformer._process_match`), the Field Imputer
(`DataTransformer.impute_match_fields`), the Event-Number Sequencer
(`DataTransformer.fill_event_match_number`) and the table assembly
(`DataTransformer.get_dataframes`).

Modelling conventions:
- Python `None` / pandas `NaN` cells are `Option.none`; JSON strings are
  `String`; JSON integers are `Int` (pandas floats are restricted to their
  integer-valued uses, which is all the claims exercise).
- A pandas element-wise comparison of a column against a null scalar yields
  `False` everywhere; `optEqStr` reproduces that (`none` compares unequal to
  everything, including `none`).
- Ordered dictionaries (the outcome "by" mapping) are insertion-ordered
  association lists.
- DataFrames are Lean lists of records; row iteration order is list order.
- Pass-through payload fields that no transformation inspects (officials,
  player_of_match, ...) are modelled as uninterpreted optional strings.
-/

/-- A raw `event_match_number` cell as it arrives from the source JSON:
absent/null, an integer, or a free-form string (the sequencer later coerces
strings with `pd.to_numeric(errors="coerce")`). -/
inductive CellVal where
  | null : CellVal
  | intv : Int → CellVal
  | strv : String → CellVal
deriving DecidableEq

/-- One fielder entry inside a wicket event; `f.get("name")` is `none` when
the key is absent or null. -/
structure Fielder where
  name : Option String
deriving DecidableEq

/-- One dismissal event of a delivery's `wickets` list.  `fielders` is `none`
when the `"fielders"` key is absent or null, `some l` when it holds a list. -/
structure Wicket where
  kind : Option String
  player_out : Option String
  fielders : Option (List Fielder)
deriving DecidableEq

/-- One delivery (ball) of an over, with the fields `_process_match` reads. -/
structure Delivery where
  batter : Option String
  bowler : Option String
  non_striker : Option String
  runs_batter : Option Int
  runs_extras : Option Int
  runs_total : Option Int
  wickets : List Wicket
deriving DecidableEq

/-- One over of an innings: its `over` number and its deliveries. -/
structure Over where
  over : Option Int
  deliveries : List Delivery
deriving DecidableEq

/-- One innings entry: the batting team and the overs. -/
structure Inning where
  team : Option String
  overs : List Over
deriving DecidableEq

/-- The `info` section of a source record, flattened over the nested
`toss` / `outcome` / `event` sub-dictionaries exactly as `_process_match`
reads them with chained `.get(..., {})` calls.  `outcome_by_pairs` is the
outcome "by" mapping as an insertion-ordered association list. -/
structure MatchInfo where
  match_type : Option String
  season : Option String
  venue : Option String
  city : Option String
  dates : List String
  teams : List String
  toss_winner : Option String
  toss_decision : Option String
  outcome_result : Option String
  outcome_winner : Option String
  outcome_by_pairs : List (String × Int)
  event_name : Option String
  event_match_number : CellVal
  balls_per_over : Option Int
  match_type_number : Option Int
  overs : Option Int
  gender : Option String
  officials : Option String
  player_of_match : Option String
  team_type : Option String
deriving DecidableEq

/-- One parsed source file: the `info` section plus the `innings` list. -/
structure SourceMatch where
  info : MatchInfo
  innings : List Inning
deriving DecidableEq

/-- The `match_data` dictionary built by `_process_match` (one MatchRecord).
`match_type` stores the already lower-cased string. -/
structure MRec where
  match_id : String
  match_type : String
  season : Option String
  venue : Option String
  city : Option String
  dates : List String
  teams : List String
  toss_winner : Option String
  toss_decision : Option String
  outcome_result : Option String
  outcome_winner : Option String
  outcome_type : Option String
  outcome_by : Option Int
  event_name : Option String
  event_match_number : CellVal
  balls_per_over : Option Int
  match_type_number : Option Int
  overs : Option Int
  gender : Option String
  officials : Option String
  player_of_match : Option String
  team_type : Option String
deriving DecidableEq

/-- The wicket fields of a delivery record; they are only set (`some`) when
the source delivery's wicket list is non-empty. -/
structure WicketData where
  kind : Option String
  player_out : Option String
  fielders : List String
deriving DecidableEq

/-- One row of the deliveries table, as built by `_process_match`. -/
structure DeliveryRecord where
  match_id : String
  innings : Nat
  batting_team : Option String
  over : Option Int
  delivery_in_over : Nat
  batter : Option String
  bowler : Option String
  non_striker : Option String
  runs_batter : Option Int
  runs_extras : Option Int
  runs_total : Option Int
  wicket : Option WicketData
deriving DecidableEq

/-- The four accumulator lists of a `DataTransformer` instance
(`self.tests`, `self.odis`, `self.t20s`, `self.deliveries`). -/
structure TState where
  tests : List MRec
  odis : List MRec
  t20s : List MRec
  deliveries : List DeliveryRecord
deriving DecidableEq

/-- The transformer state right after `__init__`: four empty lists. -/
def initState : TState := { tests := [], odis := [], t20s := [], deliveries := [] }

/-- Lower-casing of a string, character by character (Python `str.lower`
restricted to the per-character case mapping). -/
def lowerStr (s : String) : String := ⟨s.data.map Char.toLower⟩

/-- Whether `p` is a prefix of the second list (helper for substring tests). -/
def charPrefix : List Char → List Char → Bool
  | [], _ => true
  | _ :: _, [] => false
  | a :: as, b :: bs => a == b && charPrefix as bs

/-- Helper for `containsSub`: does `p` occur as a contiguous run of `l`? -/
def charInfixAux (p : List Char) : List Char → Bool
  | [] => p.isEmpty
  | c :: rest => charPrefix p (c :: rest) || charInfixAux p rest

/-- Python's `pat in s` substring containment test. -/
def containsSub (s pat : String) : Bool := charInfixAux pat.data s.data

/-- Lexicographic string comparison on code points (the order pandas
`sort_values` uses on string columns). -/
def strLe (a b : String) : Bool := decide (a.data ≤ b.data)

/-- Insert into a sorted list, keeping earlier elements first on ties. -/
def insertLeBy {α : Type} (le : α → α → Bool) (a : α) : List α → List α
  | [] => [a]
  | b :: bs => if le a b then a :: b :: bs else b :: insertLeBy le a bs

/-- Insertion sort by a boolean comparison (a sort; the claims never depend
on the order of ties, which pandas leaves unspecified as well). -/
def sortLeBy {α : Type} (le : α → α → Bool) : List α → List α
  | [] => []
  | a :: as => insertLeBy le a (sortLeBy le as)

/-- The `(outcome_type, outcome_by)` pair: the first key/value of the
outcome "by" mapping when it is non-empty (`list(d.keys())[0]`), both null
otherwise. -/
def outcomePair (pairs : List (String × Int)) : Option String × Option Int :=
  match pairs with
  | [] => (none, none)
  | (k, v) :: _ => (some k, some v)

/-- The `match_data` dictionary `_process_match` builds for one source
record: `match_id` from the file name, `match_type` lower-cased with default
`""`, the outcome margin pair, and verbatim copies of the other info fields. -/
def flattenMatch (m : SourceMatch) (mid : String) : MRec :=
  let info := m.info
  let mt := lowerStr (info.match_type.getD "")
  let ob := outcomePair info.outcome_by_pairs
  { match_id := mid
    match_type := mt
    season := info.season
    venue := info.venue
    city := info.city
    dates := info.dates
    teams := info.teams
    toss_winner := info.toss_winner
    toss_decision := info.toss_decision
    outcome_result := info.outcome_result
    outcome_winner := info.outcome_winner
    outcome_type := ob.1
    outcome_by := ob.2
    event_name := info.event_name
    event_match_number := info.event_match_number
    balls_per_over := info.balls_per_over
    match_type_number := info.match_type_number
    overs := info.overs
    gender := info.gender
    officials := info.officials
    player_of_match := info.player_of_match
    team_type := info.team_type }

/-- The fielder-name list of a wicket entry:
`[f.get("name") for f in w["fielders"] if f.get("name")]` when the
`"fielders"` key is present and truthy, `[]` otherwise (Python truthiness
drops both missing and empty-string names). -/
def wicketFielders (w : Wicket) : List String :=
  match w.fielders with
  | some fs =>
    if fs.isEmpty then []
    else fs.filterMap (fun f =>
      match f.name with
      | some n => if n = "" then none else some n
      | none => none)
  | none => []

/-- One row of the deliveries table for delivery `d`, the `k`-th delivery
(1-based) of over `overNum` in innings `inningIdx`.  The wicket fields are
set from the LAST entry of the wicket list when it is non-empty. -/
def mkDeliveryRecord (mid : String) (inningIdx : Nat) (team : Option String)
    (overNum : Option Int) (k : Nat) (d : Delivery) : DeliveryRecord :=
  { match_id := mid
    innings := inningIdx
    batting_team := team
    over := overNum
    delivery_in_over := k
    batter := d.batter
    bowler := d.bowler
    non_striker := d.non_striker
    runs_batter := d.runs_batter
    runs_extras := d.runs_extras
    runs_total := d.runs_total
    wicket :=
      match d.wickets.getLast? with
      | none => none
      | some w => some { kind := w.kind, player_out := w.player_out, fielders := wicketFielders w } }

/-- Delivery rows of one over, numbering deliveries from `k` upward
(the `enumerate(..., start=1)` loop). -/
def mkDeliveryRecs (mid : String) (inningIdx : Nat) (team : Option String)
    (overNum : Option Int) (k : Nat) : List Delivery → List DeliveryRecord
  | [] => []
  | d :: ds =>
    mkDeliveryRecord mid inningIdx team overNum k d ::
      mkDeliveryRecs mid inningIdx team overNum (k + 1) ds

/-- Delivery rows of one innings: every over's deliveries in source order. -/
def deliveriesOfInning (mid : String) (inningIdx : Nat) (inn : Inning) : List DeliveryRecord :=
  inn.overs.flatMap (fun ov => mkDeliveryRecs mid inningIdx inn.team ov.over 1 ov.deliveries)

/-- Delivery rows of the innings list, numbering innings from `i` upward. -/
def extractDeliveriesAux (mid : String) (i : Nat) : List Inning → List DeliveryRecord
  | [] => []
  | inn :: rest => deliveriesOfInning mid i inn ++ extractDeliveriesAux mid (i + 1) rest

/-- All delivery rows `_process_match` appends for one source record. -/
def extractDeliveries (m : SourceMatch) (mid : String) : List DeliveryRecord :=
  extractDeliveriesAux mid 1 m.innings

/-- `DataTransformer._process_match` on one source record: bucket the
match record by substring tests on the lower-cased match type (test, then
odi, then t20; otherwise only a log line), then append the delivery rows —
the delivery loop runs regardless of the bucketing outcome. -/
def processMatch (s : TState) (m : SourceMatch) (mid : String) : TState :=
  let md := flattenMatch m mid
  let mt := md.match_type
  let s1 :=
    if containsSub mt "test" then { s with tests := s.tests ++ [md] }
    else if containsSub mt "odi" then { s with odis := s.odis ++ [md] }
    else if containsSub mt "t20" then { s with t20s := s.t20s ++ [md] }
    else s
  { s1 with deliveries := s1.deliveries ++ extractDeliveries m mid }

/-- Missing-cell test on a string column: pandas `isna` or equality with
the empty string (`pd.isna(x) or x == ""`). -/
def missingStr : Option String → Bool
  | none => true
  | some s => s = ""

/-- Pandas element-wise equality of two possibly-null cells: a comparison
involving a null is `False`, even null against null. -/
def optEqStr : Option String → Option String → Bool
  | some a, some b => a = b
  | _, _ => false

/-- The sorted team pair used as the order-independent team-set key
(`tuple(sorted(teams))`). -/
def teamsKey (teams : List String) : List String := sortLeBy strLe teams

/-- Row filter of the city backfill: same venue as the target row and a
non-null, non-empty city (`(combined["venue"] == row["venue"]) &
combined["city"].notna() & (combined["city"] != "")`). -/
def cityCand (r c : MRec) : Bool :=
  optEqStr c.venue r.venue && !c.city.isNone && !(c.city == some "")

/-- The city-backfill subset of the universe, in universe iteration order. -/
def citySubset (combined : List MRec) (r : MRec) : List MRec :=
  combined.filter (fun c => cityCand r c)

/-- Non-null, non-empty `event_name`
(`combined["event_name"].notna() & (combined["event_name"] != "")`). -/
def eventSet (c : MRec) : Bool := !c.event_name.isNone && !(c.event_name == some "")

/-- First-pass row filter of the event-name backfill: event name set, equal
team-set key, and the city clause `(combined["city"] == row["city"]) |
(rowCityMissing & (combined["city"] != ""))` — note that a null target city
compares unequal to every cell, and that `combined["city"] != ""` is `True`
on null cells. -/
def eventPass1Cond (r : MRec) (key : List String) (c : MRec) : Bool :=
  eventSet c && teamsKey c.teams == key &&
    (optEqStr c.city r.city || (missingStr r.city && !(c.city == some "")))

/-- Second-pass row filter of the event-name backfill: the city clause
dropped. -/
def eventPass2Cond (key : List String) (c : MRec) : Bool :=
  eventSet c && teamsKey c.teams == key

/-- City backfill as a record transformer: when the input record's city is
missing, copy the city of the first universe record sharing its venue with a
non-empty city; otherwise leave the record alone. -/
def cityRule (combined : List MRec) (r : MRec) : MRec :=
  if missingStr r.city then
    match (citySubset combined r).head? with
    | some c => { r with city := c.city }
    | none => r
  else r

/-- Outcome-result default as a record transformer: when `outcome_type` is
non-null and `outcome_result` is null or empty, set `outcome_result` to
`"win"`. -/
def outcomeRule (r : MRec) : MRec :=
  if !r.outcome_type.isNone && missingStr r.outcome_result then
    { r with outcome_result := some "win" }
  else r

/-- Event-name backfill as a record transformer: when the input record's
event name is missing, run the city-constrained first pass and, only if it
finds nothing, the team-key-only second pass; copy the event name of the
first record the earliest successful pass finds. -/
def eventRule (combined : List MRec) (r : MRec) : MRec :=
  if missingStr r.event_name then
    let key := teamsKey r.teams
    match (combined.filter (eventPass1Cond r key)).head? with
    | some c => { r with event_name := c.event_name }
    | none =>
      match (combined.filter (eventPass2Cond key)).head? with
      | some c => { r with event_name := c.event_name }
      | none => r
  else r

/-- The loop body of `impute_match_fields` for one row: every condition and
every lookup reads the `iterrows` snapshot `r`, while the writes accumulate
into the output row (`df.at[idx, ...] = ...`). -/
def imputeRow (combined : List MRec) (r : MRec) : MRec :=
  let r1 :=
    if missingStr r.city then
      match (citySubset combined r).head? with
      | some c => { r with city := c.city }
      | none => r
    else r
  let r2 :=
    if !r.outcome_type.isNone && missingStr r.outcome_result then
      { r1 with outcome_result := some "win" }
    else r1
  if missingStr r.event_name then
    let key := teamsKey r.teams
    match (combined.filter (eventPass1Cond r key)).head? with
    | some c => { r2 with event_name := c.event_name }
    | none =>
      match (combined.filter (eventPass2Cond key)).head? with
      | some c => { r2 with event_name := c.event_name }
      | none => r2
  else r2

/-- `DataTransformer.impute_match_fields`: each row of the target table is
rewritten by `imputeRow` against the fixed `combined` universe (row `idx`
reads only its own snapshot and writes only row `idx`). -/
def imputeMatchFields (df : List MRec) (combined : List MRec) : List MRec :=
  df.map (imputeRow combined)

/-- Normalisation of an `event_match_number` cell inside `fill_group`:
`""` is replaced by null, then `pd.to_numeric(..., errors="coerce")` keeps
numbers and turns everything else into null (numeric strings restricted to
integer literals). -/
def parseIntDigits (acc : Nat) : List Char → Option Nat
  | [] => some acc
  | c :: cs => if c.isDigit then parseIntDigits (acc * 10 + (c.toNat - 48)) cs else none

/-- Integer reading of a decimal string literal, `none` on anything else. -/
def parseIntStr (s : String) : Option Int :=
  match s.data with
  | [] => none
  | '-' :: ds =>
    match ds with
    | [] => none
    | _ => (parseIntDigits 0 ds).map (fun n => -(n : Int))
  | ds => (parseIntDigits 0 ds).map (fun n => (n : Int))

/-- The normalised cell: null stays null, integers stay, `""` and
non-numeric strings become null. -/
def normCell : CellVal → CellVal
  | CellVal.null => CellVal.null
  | CellVal.intv n => CellVal.intv n
  | CellVal.strv s =>
    if s = "" then CellVal.null
    else
      match parseIntStr s with
      | some n => CellVal.intv n
      | none => CellVal.null

/-- Missing test on a normalised cell (`isna` after the coercion). -/
def isNullCell : CellVal → Bool
  | CellVal.intv _ => false
  | _ => true

/-- The group sorted by `match_id` and with its `event_match_number` column
normalised — the state of `group` right before the missing-mask assignment. -/
def normSorted (g : List MRec) : List MRec :=
  (sortLeBy (fun a b => strLe a.match_id b.match_id) g).map
    (fun r => { r with event_match_number := normCell r.event_match_number })

/-- The non-null numeric values of the normalised group. -/
def existingInts (g : List MRec) : List Int :=
  g.filterMap (fun r =>
    match r.event_match_number with
    | CellVal.intv n => some n
    | _ => none)

/-- Maximum of a list of integers, `none` on the empty list
(`group["event_match_number"].max()` with `skipna`). -/
def listMax : List Int → Option Int
  | [] => none
  | x :: xs =>
    match listMax xs with
    | none => some x
    | some m => some (max x m)

/-- The first value handed out to missing cells:
`int(group["event_match_number"].max()) + 1` when the group has a non-null
value, `1` otherwise. -/
def startVal (g : List MRec) : Int :=
  match listMax (existingInts g) with
  | none => 1
  | some m => m + 1

/-- Walk the sorted group and hand `k, k+1, ...` to the rows whose
normalised cell is missing (`group.loc[missing_mask, ...] = range(...)`). -/
def assignFrom (k : Int) : List MRec → List MRec
  | [] => []
  | r :: rs =>
    match r.event_match_number with
    | CellVal.intv _ => r :: assignFrom k rs
    | _ => { r with event_match_number := CellVal.intv k } :: assignFrom (k + 1) rs

/-- `fill_group`: sort by `match_id`, normalise the number column, and when
some cell is missing, assign sequential numbers from `startVal`. -/
def fillGroup (g : List MRec) : List MRec :=
  let g1 := normSorted g
  if g1.any (fun r => isNullCell r.event_match_number) then assignFrom (startVal g1) g1
  else g1

/-- The distinct `(season, event_name)` group keys of a table, in first
occurrence order; rows whose season or event name is null form NO group —
`groupby` drops null keys (`dropna=True` is the pandas default). -/
def groupKeys (df : List MRec) : List (String × String) :=
  (df.filterMap (fun r =>
    match r.season, r.event_name with
    | some s, some e => some (s, e)
    | _, _ => none)).dedup

/-- The rows of one `(season, event_name)` group. -/
def groupRows (df : List MRec) (k : String × String) : List MRec :=
  df.filter (fun r => r.season == some k.1 && r.event_name == some k.2)

/-- `DataTransformer.fill_event_match_number`:
`df.groupby(["season", "event_name"], group_keys=False).apply(fill_group)` —
the concatenation of the filled groups.  Rows with a null season or a null
event name belong to no group and are absent from the result. -/
def fillEventMatchNumber (df : List MRec) : List MRec :=
  (groupKeys df).flatMap (fun k => fillGroup (groupRows df k))

/-- `DataTransformer.get_dataframes` from the accumulated lists onward:
build the `combined` universe from the three pre-imputation tables, impute
each tier against that one fixed universe, then sequence each tier. -/
def getDataframes (tests odis t20s : List MRec) (dels : List DeliveryRecord) :
    List MRec × List MRec × List MRec × List DeliveryRecord :=
  let combined := tests ++ odis ++ t20s
  (fillEventMatchNumber (imputeMatchFields tests combined),
   fillEventMatchNumber (imputeMatchFields odis combined),
   fillEventMatchNumber (imputeMatchFields t20s combined),
   dels)

/-- First-pass row filter of the event-name backfill as the specification
words it: records whose event name is set, whose team-set key matches, and
whose city equals the target's city or — when the target's city is still
empty — ANY city.  Kept separate from `eventPass1Cond` (the filter the code
implements) so the two can be compared. -/
def eventPass1Claim (r : MRec) (key : List String) (c : MRec) : Bool :=
  eventSet c && teamsKey c.teams == key &&
    (if missingStr r.city then true else optEqStr c.city r.city)

/-- A fully-populated baseline info record for concrete evaluations. -/
def baseInfo : MatchInfo :=
  { match_type := some "ODI"
    season := some "2023"
    venue := some "V"
    city := some "C"
    dates := []
    teams := ["A", "B"]
    toss_winner := none
    toss_decision := none
    outcome_result := none
    outcome_winner := none
    outcome_by_pairs := []
    event_name := none
    event_match_number := CellVal.null
    balls_per_over := none
    match_type_number := none
    overs := none
    gender := none
    officials := none
    player_of_match := none
    team_type := none }

/-- A fully-populated baseline match record for concrete evaluations. -/
def baseRec : MRec :=
  { match_id := "m0"
    match_type := "odi"
    season := some "2023"
    venue := some "V"
    city := some "C"
    dates := []
    teams := ["A", "B"]
    toss_winner := none
    toss_decision := none
    outcome_result := none
    outcome_winner := none
    outcome_type := none
    outcome_by := none
    event_name := some "E"
    event_match_number := CellVal.null
    balls_per_over := none
    match_type_number := none
    overs := none
    gender := none
    officials := none
    player_of_match := none
    team_type := none }

/-- A concrete delivery with no wickets, for the uncategorized-match run. -/
def sampleDelivery : Delivery :=
  { batter := some "bat"
    bowler := some "bowl"
    non_striker := some "ns"
    runs_batter := some 4
    runs_extras := some 0
    runs_total := some 4
    wickets := [] }

/-- A source record whose match type contains none of test, odi, t20, with
one innings of one over of one delivery. -/
def exhibitionMatch : SourceMatch :=
  { info := { baseInfo with match_type := some "Exhibition" }
    innings := [{ team := some "A", overs := [{ over := some 0, deliveries := [sampleDelivery] }] }] }

/-- First dismissal of the two-wicket delivery. -/
def wicketA : Wicket :=
  { kind := some "caught", player_out := some "P1", fielders := some [{ name := some "F1" }] }

/-- Second (last) dismissal of the two-wicket delivery; one fielder with a
name, one without, one with an empty-string name. -/
def wicketB : Wicket :=
  { kind := some "run out"
    player_out := some "P2"
    fielders := some [{ name := some "F2" }, { name := none }, { name := some "" }] }

/-- A concrete delivery carrying two dismissal events. -/
def twoWicketDelivery : Delivery :=
  { sampleDelivery with wickets := [wicketA, wicketB] }

/-- Sequencer scenario rows: numbers null, 2, null on match ids m1 < m2 < m3
in one (season, event) group. -/
def seqRowA : MRec := { baseRec with match_id := "m1", event_match_number := CellVal.null }

/-- Second scenario row, with pre-existing number 2. -/
def seqRowB : MRec := { baseRec with match_id := "m2", event_match_number := CellVal.intv 2 }

/-- Third scenario row, number missing. -/
def seqRowC : MRec := { baseRec with match_id := "m3", event_match_number := CellVal.null }

/-- A group whose two rows both carry the pre-existing number 0. -/
def dupRowA : MRec := { baseRec with match_id := "m1", event_match_number := CellVal.intv 0 }

/-- Second row with the duplicated pre-existing number 0. -/
def dupRowB : MRec := { baseRec with match_id := "m2", event_match_number := CellVal.intv 0 }

/-- A record whose event name is null after imputation (season set). -/
def orphanRec : MRec := { baseRec with match_id := "m7", event_name := none }

/-- City-backfill scenario: the record that has the city. -/
def mumbaiRec : MRec :=
  { baseRec with match_id := "w1", venue := some "Wankhede", city := some "Mumbai" }

/-- City-backfill scenario: same venue, empty-string city. -/
def emptyCityRec : MRec :=
  { baseRec with match_id := "w2", venue := some "Wankhede", city := some "" }

/-- Event-backfill target with a null city and no event name. -/
def nullCityTarget : MRec := { baseRec with match_id := "e0", city := none, event_name := none }

/-- Universe record with event name E1 and an empty-string city. -/
def emptyCityEvent : MRec :=
  { baseRec with match_id := "e1", event_name := some "E1", city := some "" }

/-- Universe record with event name E2 and city Q. -/
def qCityEvent : MRec :=
  { baseRec with match_id := "e2", event_name := some "E2", city := some "Q" }

/-- Commutation counterexample target: city and event name both missing. -/
def commTarget : MRec := { baseRec with match_id := "c0", city := none, event_name := none }

/-- Universe record supplying city X for venue V (no event name). -/
def commCitySrc : MRec :=
  { baseRec with match_id := "c1", city := some "X", event_name := none, teams := ["C", "D"] }

/-- Universe record with event E2, city Y, matching teams. -/
def commEventY : MRec :=
  { baseRec with match_id := "c2", venue := some "W", city := some "Y", event_name := some "E2" }

/-- Universe record with event E3, city X, matching teams. -/
def commEventX : MRec :=
  { baseRec with match_id := "c3", venue := some "W2", city := some "X", event_name := some "E3" }

/-- The universe of the commutation counterexample. -/
def commUniverse : List MRec := [commCitySrc, commEventY, commEventX]

/-- Number of rows of a (normalised) group whose number cell is missing. -/
def missingCount (g : List MRec) : Nat :=
  g.countP (fun r => isNullCell r.event_match_number)

/-- The number cells the sequencer wrote: reading the output group `out`
against the normalised input group `g1` position by position, the output
cells at the positions whose input cell was missing. -/
def newCells (out g1 : List MRec) : List CellVal :=
  (out.zip g1).filterMap (fun p =>
    if isNullCell p.2.event_match_number then some p.1.event_match_number else none)

/-- C1: for every parsed source record, `_process_match` places the match
record in exactly the first bucket of the priority order test, odi, t20
whose name occurs as a substring of the lower-cased match type, and a
record matching none of the three substrings is appended to none of the
three match tables. -/
theorem c1_bucket_priority (s : TState) (m : SourceMatch) (mid : String) :
    (processMatch s m mid).tests =
      (if containsSub (lowerStr (m.info.match_type.getD "")) "test" = true
        then s.tests ++ [flattenMatch m mid] else s.tests)
    ∧ (processMatch s m mid).odis =
      (if containsSub (lowerStr (m.info.match_type.getD "")) "test" = false
          ∧ containsSub (lowerStr (m.info.match_type.getD "")) "odi" = true
        then s.odis ++ [flattenMatch m mid] else s.odis)
    ∧ (processMatch s m mid).t20s =
      (if containsSub (lowerStr (m.info.match_type.getD "")) "test" = false
          ∧ containsSub (lowerStr (m.info.match_type.getD "")) "odi" = false
          ∧ containsSub (lowerStr (m.info.match_type.getD "")) "t20" = true
        then s.t20s ++ [flattenMatch m mid] else s.t20s) := by
  have hmt : (flattenMatch m mid).match_type = lowerStr (m.info.match_type.getD "") := rfl
  simp only [processMatch, hmt]
  cases h1 : containsSub (lowerStr (m.info.match_type.getD "")) "test" <;>
    cases h2 : containsSub (lowerStr (m.info.match_type.getD "")) "odi" <;>
      cases h3 : containsSub (lowerStr (m.info.match_type.getD "")) "t20" <;>
        simp

/-- C7: the outcome margin pair of the flattened record is the first
key/value of the outcome "by" mapping in insertion order when the mapping is
non-empty, and both components are null when it is empty. -/
theorem c7_outcome_margin (m : SourceMatch) (mid : String) :
    (flattenMatch m mid).outcome_type = m.info.outcome_by_pairs.head?.map Prod.fst
    ∧ (flattenMatch m mid).outcome_by = m.info.outcome_by_pairs.head?.map Prod.snd := by
  cases h : m.info.outcome_by_pairs with
  | nil => simp [flattenMatch, outcomePair, h]
  | cons p ps => cases p; simp [flattenMatch, outcomePair, h]

/-- C2 is false on the code: a source record whose lower-cased match type
contains none of test, odi, t20 still has its delivery rows appended to the
deliveries table — here a record of type "Exhibition" contributes a
delivery row carrying its match id while all three match tables stay
empty. -/
theorem c2_counterexample :
    containsSub (lowerStr (exhibitionMatch.info.match_type.getD "")) "test" = false
    ∧ containsSub (lowerStr (exhibitionMatch.info.match_type.getD "")) "odi" = false
    ∧ containsSub (lowerStr (exhibitionMatch.info.match_type.getD "")) "t20" = false
    ∧ (processMatch initState exhibitionMatch "m9").tests = []
    ∧ (processMatch initState exhibitionMatch "m9").odis = []
    ∧ (processMatch initState exhibitionMatch "m9").t20s = []
    ∧ (processMatch initState exhibitionMatch "m9").deliveries.map DeliveryRecord.match_id
        = ["m9"] := by
  decide

/-- C2 amended: a source record whose lower-cased match type contains none
of the substrings test, odi, t20 is excluded from the three match tables,
but its delivery rows are still appended to the deliveries table. -/
theorem c2_amended (s : TState) (m : SourceMatch) (mid : String)
    (h1 : containsSub (lowerStr (m.info.match_type.getD "")) "test" = false)
    (h2 : containsSub (lowerStr (m.info.match_type.getD "")) "odi" = false)
    (h3 : containsSub (lowerStr (m.info.match_type.getD "")) "t20" = false) :
    (processMatch s m mid).tests = s.tests
    ∧ (processMatch s m mid).odis = s.odis
    ∧ (processMatch s m mid).t20s = s.t20s
    ∧ (processMatch s m mid).deliveries = s.deliveries ++ extractDeliveries m mid := by
  have hmt : (flattenMatch m mid).match_type = lowerStr (m.info.match_type.getD "") := rfl
  simp [processMatch, hmt, h1, h2, h3]

/-- Concrete instance of the amended C2 at the "Exhibition" record. -/
theorem c2_amended_witness :
    containsSub (lowerStr (exhibitionMatch.info.match_type.getD "")) "odi" = false
    ∧ (processMatch initState exhibitionMatch "mx").deliveries
        = [] ++ extractDeliveries exhibitionMatch "mx" :=
  ⟨by decide,
   (c2_amended initState exhibitionMatch "mx" (by decide) (by decide) (by decide)).2.2.2⟩

/-- The fielder-name list of a wicket entry collapses to a filter of the
entry's fielder list (empty when the fielders key is absent): names that
are missing or empty are dropped, source order is kept. -/
theorem wicketFielders_eq (w : Wicket) :
    wicketFielders w = (w.fielders.getD []).filterMap (fun f =>
      match f.name with
      | some n => if n = "" then none else some n
      | none => none) := by
  cases hf : w.fielders with
  | none => simp [wicketFielders, hf]
  | some fs => cases fs <;> simp [wicketFielders, hf]

/-- C3: when a delivery's wicket list is non-empty, the delivery record's
wicket fields come from the LAST entry of the list — its kind, its
dismissed player, and its fielder names in order with nameless (or
empty-named) fielder entries dropped, the empty list when the entry
records no fielders. -/
theorem c3_last_wicket (mid : String) (ii : Nat) (team : Option String)
    (ov : Option Int) (k : Nat) (d : Delivery) (ws : List Wicket) (w : Wicket)
    (h : d.wickets = ws ++ [w]) :
    (mkDeliveryRecord mid ii team ov k d).wicket =
      some { kind := w.kind
             player_out := w.player_out
             fielders := (w.fielders.getD []).filterMap (fun f =>
               match f.name with
               | some n => if n = "" then none else some n
               | none => none) } := by
  have hl : d.wickets.getLast? = some w := by
    rw [h]; exact List.getLast?_concat ws
  simp [mkDeliveryRecord, hl, wicketFielders_eq]

/-- Concrete instance of C3 at a delivery carrying two dismissals: only the
second entry's kind, player and named fielders are retained. -/
theorem c3_witness :
    twoWicketDelivery.wickets = [wicketA] ++ [wicketB]
    ∧ (mkDeliveryRecord "d1" 1 (some "A") (some 0) 1 twoWicketDelivery).wicket =
      some { kind := some "run out", player_out := some "P2", fielders := ["F2"] } :=
  ⟨by decide, by
    rw [c3_last_wicket "d1" 1 (some "A") (some 0) 1 twoWicketDelivery [wicketA] wicketB
      (by decide)]
    decide⟩

/-- The imputation loop body decomposed field-wise: since every condition
and lookup reads the row snapshot, the written row is the snapshot with its
city, outcome result and event name replaced by what the three rules would
each produce from the snapshot. -/
theorem imputeRow_char (combined : List MRec) (r : MRec) :
    imputeRow combined r =
      { r with
        city := (cityRule combined r).city
        outcome_result := (outcomeRule r).outcome_result
        event_name := (eventRule combined r).event_name } := by
  simp only [imputeRow, cityRule, outcomeRule, eventRule]
  cases hm : missingStr r.city <;>
    cases hh : (citySubset combined r).head? <;>
      cases ho : (!r.outcome_type.isNone && missingStr r.outcome_result) <;>
        cases he : missingStr r.event_name <;>
          cases h1 : (combined.filter (eventPass1Cond r (teamsKey r.teams))).head? <;>
            cases h2 : (combined.filter (eventPass2Cond (teamsKey r.teams))).head? <;>
              simp [hm, hh, ho, he, h1, h2]

/-- C5: for a target record whose city is null or empty, the imputation
sets its city to the city of the FIRST universe record (in universe
iteration order) sharing its venue with a non-empty city — a record of the
universe distinct from the target — and leaves the city unchanged (hence
still missing) when no such universe record exists. -/
theorem c5_city_backfill (combined : List MRec) (r : MRec)
    (h : missingStr r.city = true) :
    (∀ c, (citySubset combined r).head? = some c →
      (imputeRow combined r).city = c.city
        ∧ c ∈ combined
        ∧ optEqStr c.venue r.venue = true
        ∧ missingStr c.city = false
        ∧ c ≠ r)
    ∧ ((citySubset combined r).head? = none →
        (imputeRow combined r).city = r.city) := by
  have hc : (imputeRow combined r).city = (cityRule combined r).city := by
    rw [imputeRow_char]
  constructor
  · intro c hhead
    have hmemsub : c ∈ citySubset combined r := by
      cases hl : citySubset combined r with
      | nil => rw [hl] at hhead; simp at hhead
      | cons x xs =>
        rw [hl] at hhead
        simp only [List.head?_cons, Option.some.injEq] at hhead
        rw [← hhead]
        exact List.mem_cons_self x xs
    have hfilt := List.mem_filter.mp hmemsub
    have hcand : cityCand r c = true := hfilt.2
    simp only [cityCand, Bool.and_eq_true] at hcand
    have hven : optEqStr c.venue r.venue = true := hcand.1.1
    have hnn : missingStr c.city = false := by
      rcases hcand with ⟨⟨-, hnone⟩, hne⟩
      cases hcity : c.city with
      | none => rw [hcity] at hnone; simp at hnone
      | some s =>
        rw [hcity] at hne
        simp only [missingStr]
        by_cases hs : s = ""
        · subst hs; simp at hne
        · simp [hs]
    refine ⟨?_, hfilt.1, hven, hnn, ?_⟩
    · rw [hc]
      simp [cityRule, h, hhead]
    · intro heq
      rw [heq, h] at hnn
      exact absurd hnn (by decide)
  · intro hhead
    rw [hc]
    simp [cityRule, h, hhead]

/-- Concrete instance of C5, the Mumbai scenario: two records share a
venue, one with city Mumbai and one with the empty-string city; after
imputation both carry Mumbai. -/
theorem c5_witness :
    missingStr emptyCityRec.city = true
    ∧ (imputeRow [mumbaiRec, emptyCityRec] emptyCityRec).city = some "Mumbai"
    ∧ (imputeRow [mumbaiRec, emptyCityRec] mumbaiRec).city = some "Mumbai" :=
  ⟨by decide,
   by
    have hfirst := (c5_city_backfill [mumbaiRec, emptyCityRec] emptyCityRec (by decide)).1
      mumbaiRec (by decide)
    rw [hfirst.1]; decide,
   by decide⟩

/-- The city rule writes only the city field. -/
theorem cityRule_shape (combined : List MRec) (r : MRec) :
    cityRule combined r = { r with city := (cityRule combined r).city } := by
  unfold cityRule
  cases hm : missingStr r.city <;>
    cases hh : (citySubset combined r).head? <;>
      simp [hm, hh]

/-- The outcome rule writes only the outcome-result field. -/
theorem outcomeRule_shape (r : MRec) :
    outcomeRule r = { r with outcome_result := (outcomeRule r).outcome_result } := by
  unfold outcomeRule
  cases ho : (!r.outcome_type.isNone && missingStr r.outcome_result) <;> simp [ho]

/-- The event rule writes only the event-name field. -/
theorem eventRule_shape (combined : List MRec) (r : MRec) :
    eventRule combined r = { r with event_name := (eventRule combined r).event_name } := by
  unfold eventRule
  cases he : missingStr r.event_name <;>
    cases h1 : (combined.filter (eventPass1Cond r (teamsKey r.teams))).head? <;>
      cases h2 : (combined.filter (eventPass2Cond (teamsKey r.teams))).head? <;>
        simp [he, h1, h2]

/-- The outcome rule does not read the city field. -/
theorem outcomeRule_set_city (r : MRec) (c : Option String) :
    outcomeRule { r with city := c } = { outcomeRule r with city := c } := by
  unfold outcomeRule
  cases ho : (!r.outcome_type.isNone && missingStr r.outcome_result) <;> simp [ho]

/-- The outcome rule does not read the event-name field. -/
theorem outcomeRule_set_event (r : MRec) (e : Option String) :
    outcomeRule { r with event_name := e } = { outcomeRule r with event_name := e } := by
  unfold outcomeRule
  cases ho : (!r.outcome_type.isNone && missingStr r.outcome_result) <;> simp [ho]

/-- The city rule reads only city and venue, so setting outcome result and
event name on its input commutes with it. -/
theorem cityRule_set_or_ev (combined : List MRec) (r : MRec) (o e : Option String) :
    cityRule combined { r with outcome_result := o, event_name := e } =
      { cityRule combined r with outcome_result := o, event_name := e } := by
  have hsub : citySubset combined { r with outcome_result := o, event_name := e } =
      citySubset combined r := rfl
  unfold cityRule
  rw [hsub]
  cases hm : missingStr r.city <;>
    cases hh : (citySubset combined r).head? <;>
      simp [hm, hh]

/-- The city rule with only the outcome result changed on its input. -/
theorem cityRule_set_or (combined : List MRec) (r : MRec) (o : Option String) :
    cityRule combined { r with outcome_result := o } =
      { cityRule combined r with outcome_result := o } := by
  have hsub : citySubset combined { r with outcome_result := o } = citySubset combined r := rfl
  unfold cityRule
  rw [hsub]
  cases hm : missingStr r.city <;>
    cases hh : (citySubset combined r).head? <;>
      simp [hm, hh]

/-- The event rule reads only event name, teams and city, so setting the
outcome result on its input commutes with it. -/
theorem eventRule_set_or (combined : List MRec) (r : MRec) (o : Option String) :
    eventRule combined { r with outcome_result := o } =
      { eventRule combined r with outcome_result := o } := by
  have hp1 : eventPass1Cond { r with outcome_result := o } = eventPass1Cond r := rfl
  unfold eventRule
  rw [hp1]
  cases he : missingStr r.event_name <;>
    cases h1 : (combined.filter (eventPass1Cond r (teamsKey r.teams))).head? <;>
      cases h2 : (combined.filter (eventPass2Cond (teamsKey r.teams))).head? <;>
        simp [he, h1, h2]

/-- The snapshot-reading loop body equals the sequential composition that
runs the event rule FIRST, then the outcome rule, then the city rule: in
that order every rule still sees the pre-imputation values of the fields it
reads. -/
theorem imputeRow_comp (combined : List MRec) (r : MRec) :
    imputeRow combined r = cityRule combined (outcomeRule (eventRule combined r)) := by
  have h2 : outcomeRule (eventRule combined r)
      = { r with outcome_result := (outcomeRule r).outcome_result,
                 event_name := (eventRule combined r).event_name } := by
    conv_lhs => rw [eventRule_shape combined r]
    rw [outcomeRule_set_event]
    conv_lhs => rw [outcomeRule_shape r]
  rw [h2, cityRule_set_or_ev, imputeRow_char]
  conv_rhs => rw [cityRule_shape combined r]

/-- The outcome rule commutes with the city rule. -/
theorem outcome_city_comm (combined : List MRec) (r : MRec) :
    outcomeRule (cityRule combined r) = cityRule combined (outcomeRule r) := by
  conv_lhs => rw [cityRule_shape combined r, outcomeRule_set_city, outcomeRule_shape r]
  conv_rhs => rw [outcomeRule_shape r, cityRule_set_or, cityRule_shape combined r]

/-- The outcome rule commutes with the event rule. -/
theorem outcome_event_comm (combined : List MRec) (r : MRec) :
    outcomeRule (eventRule combined r) = eventRule combined (outcomeRule r) := by
  conv_lhs => rw [eventRule_shape combined r, outcomeRule_set_event, outcomeRule_shape r]
  conv_rhs => rw [outcomeRule_shape r, eventRule_set_or, eventRule_shape combined r]

/-- C9: the imputation pass rewrites each target row independently against
the one fixed universe list, which it only reads (the output is a new table;
the universe argument is never written), and for every target record it
writes at most the city, outcome-result and event-name fields: every other
field of the record is returned unchanged. -/
theorem c9_imputer_frame (df combined : List MRec) (r : MRec) :
    imputeMatchFields df combined = df.map (imputeRow combined)
    ∧ (imputeRow combined r).match_id = r.match_id
    ∧ (imputeRow combined r).match_type = r.match_type
    ∧ (imputeRow combined r).season = r.season
    ∧ (imputeRow combined r).venue = r.venue
    ∧ (imputeRow combined r).dates = r.dates
    ∧ (imputeRow combined r).teams = r.teams
    ∧ (imputeRow combined r).toss_winner = r.toss_winner
    ∧ (imputeRow combined r).toss_decision = r.toss_decision
    ∧ (imputeRow combined r).outcome_winner = r.outcome_winner
    ∧ (imputeRow combined r).outcome_type = r.outcome_type
    ∧ (imputeRow combined r).outcome_by = r.outcome_by
    ∧ (imputeRow combined r).event_match_number = r.event_match_number
    ∧ (imputeRow combined r).balls_per_over = r.balls_per_over
    ∧ (imputeRow combined r).match_type_number = r.match_type_number
    ∧ (imputeRow combined r).overs = r.overs
    ∧ (imputeRow combined r).gender = r.gender
    ∧ (imputeRow combined r).officials = r.officials
    ∧ (imputeRow combined r).player_of_match = r.player_of_match
    ∧ (imputeRow combined r).team_type = r.team_type := by
  rw [imputeRow_char]
  exact ⟨rfl, rfl, rfl, rfl, rfl, rfl, rfl, rfl, rfl, rfl, rfl, rfl, rfl, rfl, rfl, rfl,
    rfl, rfl, rfl, rfl⟩

/-- C10 is false on the code: the imputation rules, applied as sequential
record transformers, do NOT all agree with the order city, outcome-result,
event-name.  At this concrete target the order event-name, outcome-result,
city (which is what the snapshot-reading loop body computes) backfills event
E2, while the claimed canonical order backfills E3, because the event-name
rule reads the city field that the city rule has just written. -/
theorem c10_counterexample :
    (eventRule commUniverse (outcomeRule (cityRule commUniverse commTarget))).event_name
      = some "E3"
    ∧ (cityRule commUniverse (outcomeRule (eventRule commUniverse commTarget))).event_name
      = some "E2"
    ∧ eventRule commUniverse (outcomeRule (cityRule commUniverse commTarget))
      ≠ cityRule commUniverse (outcomeRule (eventRule commUniverse commTarget))
    ∧ imputeRow commUniverse commTarget
      ≠ eventRule commUniverse (outcomeRule (cityRule commUniverse commTarget)) := by
  decide

/-- C10 amended: the outcome-result rule commutes with each of the other
two rules, and the loop body — whose conditions and lookups all read the
row snapshot — equals the sequential composition in the order event-name,
outcome-result, city; the order city, outcome-result, event-name is NOT
equivalent in general, since the event-name rule reads the city field that
the city rule writes. -/
theorem c10_amended (combined : List MRec) (r : MRec) :
    imputeRow combined r = cityRule combined (outcomeRule (eventRule combined r))
    ∧ outcomeRule (cityRule combined r) = cityRule combined (outcomeRule r)
    ∧ outcomeRule (eventRule combined r) = eventRule combined (outcomeRule r) :=
  ⟨imputeRow_comp combined r, outcome_city_comm combined r, outcome_event_comm combined r⟩

/-- The head of a filtered list belongs to the list and satisfies the
filter. -/
theorem head?_filter_mem {α : Type} {p : α → Bool} {l : List α} {c : α}
    (h : (l.filter p).head? = some c) : c ∈ l ∧ p c = true := by
  have hm : c ∈ l.filter p := by
    cases hl : l.filter p with
    | nil => rw [hl] at h; simp at h
    | cons x xs =>
      rw [hl] at h
      simp only [List.head?_cons, Option.some.injEq] at h
      rw [← h]
      exact List.mem_cons_self x xs
  exact List.mem_filter.mp hm

/-- The implemented first-pass filter of the event-name backfill differs
from the specification's wording exactly on one point: when the target's
city is null, records whose city is the literal empty string are excluded,
although the specification allows ANY city. -/
theorem pass1_impl_vs_claim (r c : MRec) (key : List String) :
    eventPass1Cond r key c =
      (eventPass1Claim r key c && !(r.city == none && c.city == some "")) := by
  simp only [eventPass1Cond, eventPass1Claim]
  cases hr : r.city with
  | none =>
    cases hc : c.city with
    | none => simp [missingStr, optEqStr]
    | some s => by_cases hs : s = "" <;> simp [missingStr, optEqStr, hs]
  | some t =>
    by_cases ht : t = ""
    · subst ht
      cases hc : c.city with
      | none => simp [missingStr, optEqStr]
      | some s => by_cases hs : s = "" <;> simp [missingStr, optEqStr, hs]
    · cases hc : c.city with
      | none => simp [missingStr, optEqStr, ht]
      | some s => by_cases hs : s = "" <;> simp [missingStr, optEqStr, ht, hs]

/-- C6 is false on the code: for a target with a NULL city, the first pass
of the event-name backfill is not "any city" — it excludes universe records
whose city is the literal empty string.  Here the first record matching the
claimed pass-one filter carries event E1 (city `""`), yet the code
backfills E2 from the later record. -/
theorem c6_counterexample :
    missingStr nullCityTarget.event_name = true
    ∧ ([emptyCityEvent, qCityEvent].filter
        (eventPass1Claim nullCityTarget (teamsKey nullCityTarget.teams))).head?
        = some emptyCityEvent
    ∧ emptyCityEvent.event_name = some "E1"
    ∧ (eventRule [emptyCityEvent, qCityEvent] nullCityTarget).event_name = some "E2"
    ∧ (some "E2" : Option String) ≠ some "E1" := by
  decide

/-- C6 amended: for a target with missing event name, the first pass
considers records with event name set, matching team key, and whose city
equals the target's city — or, when the target's city is missing, any city
OTHER than the literal empty string (records whose city cell is the empty
string are excluded when the target's city is null; null cities do
qualify).  Only when that pass finds nothing does the second, team-key-only
pass run; the event name is copied from the first record of the earliest
successful pass and left unchanged when both passes are empty. -/
theorem c6_event_backfill (combined : List MRec) (r : MRec)
    (h : missingStr r.event_name = true) :
    (∀ c, eventPass1Cond r (teamsKey r.teams) c =
        (eventPass1Claim r (teamsKey r.teams) c && !(r.city == none && c.city == some "")))
    ∧ (∀ c, (combined.filter (eventPass1Cond r (teamsKey r.teams))).head? = some c →
        (eventRule combined r).event_name = c.event_name
          ∧ c ∈ combined ∧ eventSet c = true
          ∧ teamsKey c.teams = teamsKey r.teams)
    ∧ ((combined.filter (eventPass1Cond r (teamsKey r.teams))).head? = none →
        (∀ c, (combined.filter (eventPass2Cond (teamsKey r.teams))).head? = some c →
          (eventRule combined r).event_name = c.event_name
            ∧ c ∈ combined ∧ eventSet c = true
            ∧ teamsKey c.teams = teamsKey r.teams)
        ∧ ((combined.filter (eventPass2Cond (teamsKey r.teams))).head? = none →
            eventRule combined r = r)) := by
  refine ⟨fun c => pass1_impl_vs_claim r c (teamsKey r.teams), ?_, ?_⟩
  · intro c hc
    have hmem := head?_filter_mem hc
    have hcond := hmem.2
    simp only [eventPass1Cond, Bool.and_eq_true] at hcond
    refine ⟨?_, hmem.1, hcond.1.1, eq_of_beq hcond.1.2⟩
    simp [eventRule, h, hc]
  · intro h1
    constructor
    · intro c hc2
      have hmem := head?_filter_mem hc2
      have hcond := hmem.2
      simp only [eventPass2Cond, Bool.and_eq_true] at hcond
      refine ⟨?_, hmem.1, hcond.1, eq_of_beq hcond.2⟩
      simp [eventRule, h, h1, hc2]
    · intro h2
      simp [eventRule, h, h1, h2]

/-- Concrete instance of the amended C6: the null-city target backfills E2,
the event name of the first record of the implemented first pass. -/
theorem c6_witness :
    missingStr nullCityTarget.event_name = true
    ∧ ([emptyCityEvent, qCityEvent].filter
        (eventPass1Cond nullCityTarget (teamsKey nullCityTarget.teams))).head?
        = some qCityEvent
    ∧ (eventRule [emptyCityEvent, qCityEvent] nullCityTarget).event_name = some "E2" :=
  ⟨by decide, by decide, by
    have hx := (c6_event_backfill [emptyCityEvent, qCityEvent] nullCityTarget (by decide)).2.1
      qCityEvent (by decide)
    rw [hx.1]
    decide⟩

/-- C8 is violated by the code: a record whose event name is still null
after imputation is DELETED by the sequencer, because grouping by
(season, event_name) drops rows with a null group key.  The record below
survives imputation unchanged (no universe evidence), yet the final tier
table is empty. -/
theorem c8_sequencer_drops_null_groups :
    orphanRec.event_name = none
    ∧ imputeMatchFields [orphanRec] ([orphanRec] ++ [] ++ []) = [orphanRec]
    ∧ getDataframes [orphanRec] [] [] [] = ([], [], [], [])
    ∧ orphanRec ∉ (getDataframes [orphanRec] [] [] []).1 := by
  decide

/-- Assigning sequence numbers preserves the group's length. -/
theorem assignFrom_length (k : Int) (l : List MRec) :
    (assignFrom k l).length = l.length := by
  induction l generalizing k with
  | nil => rfl
  | cons r rs ih => cases hr : r.event_match_number <;> simp [assignFrom, hr, ih]

/-- A row whose normalised number cell is present is returned unchanged at
its position. -/
theorem assignFrom_kept (k : Int) (l : List MRec) (i : Nat) (r : MRec)
    (hg : l[i]? = some r) (hnn : isNullCell r.event_match_number = false) :
    (assignFrom k l)[i]? = some r := by
  induction l generalizing k i with
  | nil => simp at hg
  | cons x xs ih =>
    cases i with
    | zero =>
      simp only [List.getElem?_cons_zero, Option.some.injEq] at hg
      subst hg
      cases hr : x.event_match_number with
      | intv n => simp [assignFrom, hr]
      | null => rw [hr] at hnn; simp [isNullCell] at hnn
      | strv s => rw [hr] at hnn; simp [isNullCell] at hnn
    | succ j =>
      have hg2 : xs[j]? = some r := by simpa using hg
      cases hr : x.event_match_number with
      | intv n =>
        simp only [assignFrom, hr, List.getElem?_cons_succ]
        exact ih k j hg2
      | null =>
        simp only [assignFrom, hr, List.getElem?_cons_succ]
        exact ih (k + 1) j hg2
      | strv s =>
        simp only [assignFrom, hr, List.getElem?_cons_succ]
        exact ih (k + 1) j hg2

/-- The cells written by the assignment walk are exactly the consecutive
integers `k, k+1, ...`, one per missing cell, in list order. -/
theorem newCells_assignFrom (k : Int) (l : List MRec) :
    newCells (assignFrom k l) l
      = (List.range (missingCount l)).map (fun j : Nat => CellVal.intv (k + (j : Int))) := by
  induction l generalizing k with
  | nil => simp [newCells, missingCount, assignFrom]
  | cons x xs ih =>
    cases hr : x.event_match_number with
    | intv n =>
      have hstep : newCells (assignFrom k (x :: xs)) (x :: xs)
          = newCells (assignFrom k xs) xs := by
        simp [newCells, assignFrom, hr, isNullCell]
      have hcount : missingCount (x :: xs) = missingCount xs := by
        simp [missingCount, List.countP_cons, hr, isNullCell]
      rw [hstep, hcount, ih k]
    | null =>
      have hstep : newCells (assignFrom k (x :: xs)) (x :: xs)
          = CellVal.intv k :: newCells (assignFrom (k + 1) xs) xs := by
        simp [newCells, assignFrom, hr, isNullCell]
      have hcount : missingCount (x :: xs) = missingCount xs + 1 := by
        simp [missingCount, List.countP_cons, hr, isNullCell]
      rw [hstep, hcount, ih (k + 1), List.range_succ_eq_map, List.map_cons, List.map_map]
      congr 1
      · norm_num
      · apply List.map_congr_left
        intro a ha
        simp only [Function.comp_apply]
        congr 1
        push_cast
        ring
    | strv s =>
      have hstep : newCells (assignFrom k (x :: xs)) (x :: xs)
          = CellVal.intv k :: newCells (assignFrom (k + 1) xs) xs := by
        simp [newCells, assignFrom, hr, isNullCell]
      have hcount : missingCount (x :: xs) = missingCount xs + 1 := by
        simp [missingCount, List.countP_cons, hr, isNullCell]
      rw [hstep, hcount, ih (k + 1), List.range_succ_eq_map, List.map_cons, List.map_map]
      congr 1
      · norm_num
      · apply List.map_congr_left
        intro a ha
        simp only [Function.comp_apply]
        congr 1
        push_cast
        ring

/-- When no cell of the group is missing the walk writes nothing. -/
theorem newCells_self_of_none (l : List MRec)
    (h : l.any (fun r => isNullCell r.event_match_number) = false) :
    newCells l l = [] ∧ missingCount l = 0 := by
  induction l with
  | nil => exact ⟨rfl, rfl⟩
  | cons x xs ih =>
    simp only [List.any_cons, Bool.or_eq_false_iff] at h
    obtain ⟨hx, hxs⟩ := h
    obtain ⟨ih1, ih2⟩ := ih hxs
    constructor
    · have hstep : newCells (x :: xs) (x :: xs) = newCells xs xs := by
        simp [newCells, hx]
      rw [hstep, ih1]
    · simp only [missingCount, List.countP_cons, hx]
      simpa [missingCount] using ih2

/-- Every member of an integer list is bounded by its maximum. -/
theorem mem_le_listMax {l : List Int} {v : Int} (h : v ∈ l) :
    ∃ m, listMax l = some m ∧ v ≤ m := by
  induction l with
  | nil => simp at h
  | cons x xs ih =>
    rcases List.mem_cons.mp h with h1 | h2
    · subst h1
      cases hm : listMax xs with
      | none => exact ⟨v, by simp [listMax, hm], le_refl v⟩
      | some m => exact ⟨max v m, by simp [listMax, hm], le_max_left v m⟩
    · obtain ⟨m, hm, hv⟩ := ih h2
      exact ⟨max x m, by simp [listMax, hm], le_trans hv (le_max_right x m)⟩

/-- Every pre-existing number of a group is strictly below the start of the
newly assigned range. -/
theorem existing_lt_startVal {g : List MRec} {v : Int} (h : v ∈ existingInts g) :
    v < startVal g := by
  obtain ⟨m, hm, hv⟩ := mem_le_listMax h
  have hs : startVal g = m + 1 := by unfold startVal; rw [hm]
  rw [hs]
  omega

/-- C4 is false as stated: the sequencer never rewrites pre-existing
numeric values, so a group whose pre-existing numbers are duplicated (and
not ≥ 1) keeps them — here both rows end with number 0, so the final
values of the group are neither unique nor ≥ 1. -/
theorem c4_counterexample :
    (fillGroup [dupRowA, dupRowB]).map (fun r => r.event_match_number)
      = [CellVal.intv 0, CellVal.intv 0]
    ∧ ¬ ((fillGroup [dupRowA, dupRowB]).map (fun r => r.event_match_number)).Nodup
    ∧ CellVal.intv 0 ∈ (fillGroup [dupRowA, dupRowB]).map (fun r => r.event_match_number)
    ∧ ¬ (1 ≤ (0 : Int)) := by
  decide

/-- C4 amended: within a group (sorted by match id, number column
normalised), rows with a numeric number are returned unchanged at their
position; the cells written to the missing rows are exactly the
consecutive integers starting at one above the group's maximum pre-existing
numeric value (at 1 when the group has none), in sorted order, so the NEWLY
assigned values are unique and strictly greater than every pre-existing
value — but final values across the whole group need not be unique or ≥ 1
when the pre-existing numbers already violate that.  The scenario
[null, 2, null] in match-id order ends as [3, 2, 4]. -/
theorem c4_amended (g : List MRec) :
    (fillGroup g).length = (normSorted g).length
    ∧ (∀ (i : Nat) (r : MRec), (normSorted g)[i]? = some r →
        isNullCell r.event_match_number = false → (fillGroup g)[i]? = some r)
    ∧ newCells (fillGroup g) (normSorted g)
        = (List.range (missingCount (normSorted g))).map
            (fun j : Nat => CellVal.intv (startVal (normSorted g) + (j : Int)))
    ∧ (∀ v ∈ existingInts (normSorted g), ∀ w : Int,
        CellVal.intv w ∈ newCells (fillGroup g) (normSorted g) → v < w)
    ∧ (fillGroup [seqRowA, seqRowB, seqRowC]).map (fun r => r.event_match_number)
        = [CellVal.intv 3, CellVal.intv 2, CellVal.intv 4] := by
  by_cases hmiss : (normSorted g).any (fun r => isNullCell r.event_match_number) = true
  · have hfg : fillGroup g = assignFrom (startVal (normSorted g)) (normSorted g) := by
      simp [fillGroup, hmiss]
    refine ⟨?_, ?_, ?_, ?_, by decide⟩
    · rw [hfg]; exact assignFrom_length _ _
    · intro i r hgi hnn
      rw [hfg]
      exact assignFrom_kept _ _ i r hgi hnn
    · rw [hfg]; exact newCells_assignFrom _ _
    · intro v hv w hw
      rw [hfg, newCells_assignFrom] at hw
      obtain ⟨j, hj, hjew⟩ := List.mem_map.mp hw
      have hwe : startVal (normSorted g) + (j : Int) = w := by
        injection hjew
      have hlt := existing_lt_startVal hv
      omega
  · have hb : (normSorted g).any (fun r => isNullCell r.event_match_number) = false := by
      simpa using hmiss
    have hfg : fillGroup g = normSorted g := by
      simp [fillGroup, hb]
    obtain ⟨hnew, hcnt⟩ := newCells_self_of_none _ hb
    refine ⟨by rw [hfg], ?_, ?_, ?_, by decide⟩
    · intro i r hgi hnn
      rw [hfg]
      exact hgi
    · rw [hfg, hnew, hcnt]; simp
    · intro v hv w hw
      rw [hfg, hnew] at hw
      simp at hw

/-- Concrete instance of the amended C4 at the [null, 2, null] scenario
group: the row with pre-existing number 2 is returned unchanged at its
sorted position, and the pre-existing value 2 is strictly below the newly
assigned value 3. -/
theorem c4_witness :
    (normSorted [seqRowA, seqRowB, seqRowC])[1]? = some seqRowB
    ∧ (fillGroup [seqRowA, seqRowB, seqRowC])[1]? = some seqRowB
    ∧ (2 : Int) < 3 :=
  ⟨by decide,
   (c4_amended [seqRowA, seqRowB, seqRowC]).2.1 1 seqRowB (by decide) (by decide),
   (c4_amended [seqRowA, seqRowB, seqRowC]).2.2.2.1 2 (by decide) 3 (by decide)⟩
